import Mathlib

/-!
Verification development for the client-side core of the
Telecom-Customer-Retention-Agent frontend.

The embedding below translates, from the JavaScript sources,

* the result normalizer (`normalizeData.js` / context module:
  `calculateRiskLevel`, `normalizeCustomerData`),
* the polling lifecycle of the application context (`AppContext`:
  interval management, 30-minute timeout guard, `handleFileSelect`),
* the filter/search/sort view pipeline of the application context, and
* the per-row height function of `VirtualizedCustomerGrid.jsx`
  (`getItemSize`),

into executable Lean definitions.  JavaScript values that flow through the
normalizer are modelled by the small universe `JVal`; JavaScript numbers
are modelled by `ℚ` (the payloads under consideration never produce NaN or
infinities); a thrown `TypeError` is modelled by `Except.error`.
-/

namespace Retention

/-- Model of the JavaScript values occurring in backend payloads:
`null`, `undefined`, numbers, strings, booleans, arrays and plain
objects (an object is its list of own properties in insertion order). -/
inductive JVal where
  | null : JVal
  | undefined : JVal
  | num (q : ℚ) : JVal
  | str (s : String) : JVal
  | bool (b : Bool) : JVal
  | arr (xs : List JVal) : JVal
  | obj (fields : List (String × JVal)) : JVal

namespace JVal

/-- JavaScript truthiness: `null`, `undefined`, `false`, `0` and `""`
are falsy; every other value (including `[]` and `{}`) is truthy. -/
def truthy : JVal → Bool
  | .null => false
  | .undefined => false
  | .num q => q != 0
  | .str s => s != ""
  | .bool b => b
  | .arr _ => true
  | .obj _ => true

/-- Is the value an array? (`Array.isArray`.) -/
def isArr : JVal → Bool
  | .arr _ => true
  | _ => false

/-- Is the value `undefined`? -/
def isUndefined : JVal → Bool
  | .undefined => true
  | _ => false

end JVal

/-- `a || b`: the left operand when truthy, otherwise the right. -/
def jsOr (a b : JVal) : JVal := if a.truthy then a else b

/-- Own-property lookup on an object field list: the first binding of the
key, or `undefined` when the key is absent. -/
def fieldLookup (fields : List (String × JVal)) (key : String) : JVal :=
  match fields with
  | [] => .undefined
  | (k, v) :: rest => if k = key then v else fieldLookup rest key

/-- Property read `v[key]` (and `v?.key`) as a total function: reading
from `null`/`undefined` yields `undefined` here (callers that model the
plain, throwing read use `jsGetProp`); property reads on primitives and
arrays yield `undefined` for the string keys used by this code. -/
def jsGetOpt (v : JVal) (key : String) : JVal :=
  match v with
  | .obj fields => fieldLookup fields key
  | _ => .undefined

/-- Property read `v.key` with JavaScript's throwing behaviour: a
`TypeError` (modelled as `Except.error`) when the receiver is `null` or
`undefined`, otherwise as `jsGetOpt`. -/
def jsGetProp (v : JVal) (key : String) : Except String JVal :=
  match v with
  | .null => .error "TypeError: cannot read properties of null"
  | .undefined => .error "TypeError: cannot read properties of undefined"
  | .obj fields => .ok (fieldLookup fields key)
  | _ => .ok .undefined

/-- Numeric index read `v[i]` with JavaScript's throwing behaviour on a
`null`/`undefined` receiver; arrays yield their element (or `undefined`
out of bounds), other receivers yield `undefined` for the index keys used
by this code. -/
def jsIndex (v : JVal) (i : Nat) : Except String JVal :=
  match v with
  | .null => .error "TypeError: cannot read properties of null"
  | .undefined => .error "TypeError: cannot read properties of undefined"
  | .arr xs => .ok (xs.getD i .undefined)
  | _ => .ok .undefined

/-- Computed member access `v[key]` by string key with JavaScript's
throwing behaviour on a `null`/`undefined` receiver (used for
`customer_insights[customerId]`); non-object receivers yield
`undefined` for these keys. -/
def jsIndexKey (v : JVal) (key : String) : Except String JVal :=
  match v with
  | .null => .error "TypeError: cannot read properties of null"
  | .undefined => .error "TypeError: cannot read properties of undefined"
  | .obj fields => .ok (fieldLookup fields key)
  | _ => .ok .undefined

/-- Destructuring with a default, `const { key = dflt } = v`: the default
applies exactly when the property is `undefined` (missing or explicit).
The destructuring itself throws on a `null`/`undefined` source; that case
is handled by the caller (`normalizeCustomerData`). -/
def destructGet (v : JVal) (key : String) (dflt : JVal) : JVal :=
  let raw := jsGetOpt v key
  if raw.isUndefined then dflt else raw

/-- Digit run to a natural number (the action of `parseInt` on a string of
decimal digits). -/
def digitsToNat (ds : List Char) : Nat :=
  ds.foldl (fun n c => n * 10 + (c.toNat - 48)) 0

/-- Model of `parseFloat` on a string: skip leading spaces, optional
sign, then a decimal literal `digits[.digits]` as the longest valid
prefix; `none` models NaN.  (The sources only ever reach `parseFloat`
with payload strings of this decimal shape.) -/
def parseDec (s : String) : Option ℚ :=
  let cs := s.toList.dropWhile (fun c => c = ' ')
  let signed : ℚ × List Char :=
    match cs with
    | '-' :: t => (-1, t)
    | '+' :: t => (1, t)
    | _ => (1, cs)
  let intPart := signed.2.takeWhile Char.isDigit
  let rest := signed.2.dropWhile Char.isDigit
  let fracPart :=
    match rest with
    | '.' :: t => t.takeWhile Char.isDigit
    | _ => []
  if intPart = [] ∧ fracPart = [] then none
  else some (signed.1 *
    ((digitsToNat intPart : ℚ) + (digitsToNat fracPart : ℚ) / (10 ^ fracPart.length)))

/-- `parseFloat` applied to a payload value.  Non-string, non-number
values (which the backend payloads never place in a score slot) are
modelled as NaN. -/
def parseFloatJ : JVal → Option ℚ
  | .str s => parseDec s
  | _ => none

/-- Score resolution from `normalizeCustomerData`:
`typeof x === 'number' ? x : parseFloat(x) || 0` (NaN collapses to 0
through `|| 0`; a parsed 0 is 0 either way). -/
def resolveScore : JVal → ℚ
  | .num q => q
  | v => (parseFloatJ v).getD 0

/-- The rescaling step of `normalizeCustomerData`:
`if (churnProbability <= 1) churnProbability = churnProbability * 100`. -/
def rescaleScore (s : ℚ) : ℚ :=
  if s ≤ 1 then s * 100 else s

/-- `calculateRiskLevel` from `normalizeData.js`. -/
def calculateRiskLevel (churnProbability : ℚ) : String :=
  if churnProbability < 40 then "low"
  else if churnProbability ≤ 70 then "medium"
  else "high"

/-- One normalized customer record (the `NormalizedEntity` of the spec),
exactly the object literal returned inside `normalizeCustomerData`'s
`map` callback. -/
structure Customer where
  id : String
  churn_probability : ℚ
  risk_level : String
  reason : JVal
  strategy : JVal
  feature_values : JVal
  shap_feature_values : JVal
  contract_type : JVal
  internet_service : JVal
  monthly_charges : JVal

/-- Id resolution `customer.id || `customer-${index + 1}``: a nonempty
string id is used as-is; falsy values take the 1-based placeholder.  The
backend only emits string ids, so non-string truthy ids (on which the
downstream code could not operate) also take the placeholder here. -/
def resolveId (v : JVal) (index : Nat) : String :=
  match v with
  | .str s => if s = "" then "customer-" ++ toString (index + 1) else s
  | _ => "customer-" ++ toString (index + 1)

/-- The body of `normalizeCustomerData`'s `map` callback for one element
of `customer_churn`, with the surrounding arrays/objects in scope. -/
def normalizeOne (customer_reasons retention_strategies customer_insights : JVal)
    (index : Nat) (customer : JVal) : Except String Customer := do
  let rawScore ← jsGetProp customer "churn_probability"
  let churnProbability := rescaleScore (resolveScore rawScore)
  let rawId ← jsGetProp customer "id"
  let customerId := resolveId rawId index
  let insightsRaw ← jsIndexKey customer_insights customerId
  let insights := jsOr insightsRaw (.obj [])
  let featureValues := jsOr (jsGetOpt insights "feature_values") (.obj [])
  let shapValues := jsOr (jsGetOpt insights "shap_feature_values") (.obj [])
  let contractType := jsOr (jsGetOpt featureValues "Contract")
    (jsOr (jsGetOpt featureValues "contract") (.str ""))
  let internetService := jsOr (jsGetOpt featureValues "InternetService")
    (jsOr (jsGetOpt featureValues "internet_service") (.str ""))
  let monthlyCharges := jsOr (jsGetOpt featureValues "MonthlyCharges")
    (jsOr (jsGetOpt featureValues "monthly_charges") .null)
  let reason ← jsIndex customer_reasons index
  let strategy ← jsIndex retention_strategies index
  return {
    id := customerId
    churn_probability := churnProbability
    risk_level := calculateRiskLevel churnProbability
    reason := jsOr reason (.str "")
    strategy := jsOr strategy (.str "")
    feature_values := featureValues
    shap_feature_values := shapValues
    contract_type := contractType
    internet_service := internetService
    monthly_charges := monthlyCharges }

/-- `customer_churn.map((customer, index) => ...)` over the element list,
propagating the first thrown `TypeError`. -/
def normalizeList (customer_reasons retention_strategies customer_insights : JVal) :
    Nat → List JVal → Except String (List Customer)
  | _, [] => .ok []
  | index, customer :: rest => do
    let c ← normalizeOne customer_reasons retention_strategies customer_insights index customer
    let cs ← normalizeList customer_reasons retention_strategies customer_insights (index + 1) rest
    return c :: cs

/-- `normalizeCustomerData(result)` from the context module: destructure
the four collections (with defaults `[]`/`{}` applying to missing or
`undefined` properties; destructuring a `null`/`undefined` payload
throws), then map over `customer_churn` (calling `.map` on a non-array
throws). -/
def normalizeCustomerData (result : JVal) : Except String (List Customer) :=
  match result with
  | .null => .error "TypeError: cannot destructure a null payload"
  | .undefined => .error "TypeError: cannot destructure an undefined payload"
  | _ =>
    let customer_churn := destructGet result "customer_churn" (.arr [])
    let customer_reasons := destructGet result "customer_reasons" (.arr [])
    let retention_strategies := destructGet result "retention_strategies" (.arr [])
    let customer_insights := destructGet result "customer_insights" (.obj [])
    match customer_churn with
    | .arr items => normalizeList customer_reasons retention_strategies customer_insights 0 items
    | _ => .error "TypeError: customer_churn.map is not a function"

/-! ### View pipeline (filter / search / sort effect of `AppProvider`) -/

/-- The query dimensions consumed by the filter/search/sort effect of
`AppProvider` (`activeFilter`, the three category filters,
`searchQuery`, `sortType`). -/
structure ViewQuery where
  activeFilter : String
  planTypeFilter : String
  contractTypeFilter : String
  regionFilter : String
  searchQuery : String
  sortType : String

/-- The risk-level filter stage as an element predicate:
`critical` keeps `risk_level === 'high' && churn_probability >= 90`;
`high` keeps `risk_level === 'high' && 70 <= p && p < 90`;
`low` keeps `risk_level === 'low'`; any other value keeps everything. -/
def tierKeep (q : ViewQuery) (c : Customer) : Bool :=
  if q.activeFilter = "critical" then
    c.risk_level = "high" ∧ 90 ≤ c.churn_probability
  else if q.activeFilter = "high" then
    c.risk_level = "high" ∧ 70 ≤ c.churn_probability ∧ c.churn_probability < 90
  else if q.activeFilter = "low" then
    c.risk_level = "low"
  else
    true

/-- Lower-cased string content of a value; `none` for non-strings (a
truthy non-string field, on which the original `toLowerCase()` call
would itself throw, matches no filter here). -/
def jsLower : JVal → Option String
  | .str s => some s.toLower
  | _ => none

/-- `c.internet_service || c.feature_values?.InternetService ||
c.feature_values?.internet_service`. -/
def planTypeOf (c : Customer) : JVal :=
  jsOr c.internet_service
    (jsOr (jsGetOpt c.feature_values "InternetService")
      (jsGetOpt c.feature_values "internet_service"))

/-- The plan-type filter stage as an element predicate (identity when
the filter string is empty/falsy):
`planType && planType.toLowerCase() === planTypeFilter.toLowerCase()`. -/
def planKeep (q : ViewQuery) (c : Customer) : Bool :=
  if q.planTypeFilter = "" then true
  else
    let v := planTypeOf c
    v.truthy && jsLower v == some q.planTypeFilter.toLower

/-- `c.contract_type || c.feature_values?.Contract ||
c.feature_values?.contract`. -/
def contractTypeOf (c : Customer) : JVal :=
  jsOr c.contract_type
    (jsOr (jsGetOpt c.feature_values "Contract")
      (jsGetOpt c.feature_values "contract"))

/-- The contract-type filter stage as an element predicate. -/
def contractKeep (q : ViewQuery) (c : Customer) : Bool :=
  if q.contractTypeFilter = "" then true
  else
    let v := contractTypeOf c
    v.truthy && jsLower v == some q.contractTypeFilter.toLower

/-- `c.feature_values?.Region || c.feature_values?.region`. -/
def regionOf (c : Customer) : JVal :=
  jsOr (jsGetOpt c.feature_values "Region") (jsGetOpt c.feature_values "region")

/-- The region filter stage as an element predicate. -/
def regionKeep (q : ViewQuery) (c : Customer) : Bool :=
  if q.regionFilter = "" then true
  else
    let v := regionOf c
    v.truthy && jsLower v == some q.regionFilter.toLower

/-- Is `pat` an initial segment of `l`? (character-list helper for
`String.prototype.includes`). -/
def chListLeads : List Char → List Char → Bool
  | [], _ => true
  | _ :: _, [] => false
  | a :: as, b :: bs => a == b && chListLeads as bs

/-- Does `l` contain `pat` as a contiguous segment? -/
def chListHas (pat : List Char) : List Char → Bool
  | [] => chListLeads pat []
  | l@(_ :: rest) => chListLeads pat l || chListHas pat rest

/-- `s.includes(pat)` on strings. -/
def strIncludes (s pat : String) : Bool :=
  chListHas pat.toList s.toList

/-- The id-search stage as an element predicate (identity when the
query string is empty/falsy):
`c.id.toLowerCase().includes(searchQuery.toLowerCase())`. -/
def searchKeep (q : ViewQuery) (c : Customer) : Bool :=
  if q.searchQuery = "" then true
  else strIncludes c.id.toLower q.searchQuery.toLower

/-- The filtering portion of the effect, exactly as the source applies
it: each stage runs conditionally on its query field, in the fixed
order risk level → plan type → contract type → region → search. -/
def filterStage (customers : List Customer) (q : ViewQuery) : List Customer :=
  let f0 := customers
  let f1 :=
    if q.activeFilter = "critical" ∨ q.activeFilter = "high" ∨ q.activeFilter = "low"
    then f0.filter (tierKeep q) else f0
  let f2 := if q.planTypeFilter ≠ "" then f1.filter (planKeep q) else f1
  let f3 := if q.contractTypeFilter ≠ "" then f2.filter (contractKeep q) else f2
  let f4 := if q.regionFilter ≠ "" then f3.filter (regionKeep q) else f3
  if q.searchQuery ≠ "" then f4.filter (searchKeep q) else f4

/-- First embedded digit run of a string as an integer
(`parseInt(id.match(/\d+/)?.[0] || '0')`): the leftmost maximal run of
decimal digits, or 0 when the string has none. -/
def firstDigitRun (s : String) : Nat :=
  digitsToNat ((s.toList.dropWhile (fun c => ¬ c.isDigit)).takeWhile Char.isDigit)

/-- Stable-sort order for `probability-desc` / `highest-risk`
(`(a, b) => b.churn_probability - a.churn_probability`): `a` may stay
before `b` iff the comparator is ≤ 0. -/
def probDescLe (a b : Customer) : Bool :=
  b.churn_probability ≤ a.churn_probability

/-- Stable-sort order for `lowest-risk`
(`(a, b) => a.churn_probability - b.churn_probability`). -/
def probAscLe (a b : Customer) : Bool :=
  a.churn_probability ≤ b.churn_probability

/-- Stable-sort order for `id-asc`: first embedded digit run compared as
an integer, ties by string comparison of the whole id (`localeCompare`,
which on these ASCII ids orders like `≤` on strings). -/
def idAscLe (a b : Customer) : Bool :=
  firstDigitRun a.id < firstDigitRun b.id ∨
    (firstDigitRun a.id = firstDigitRun b.id ∧ a.id ≤ b.id)

/-- The sorting portion of the effect (`Array.prototype.sort` is stable,
modelled by `List.mergeSort`); unrecognized sort keys leave the filtered
order untouched. -/
def sortStage (customers : List Customer) (q : ViewQuery) : List Customer :=
  if q.sortType = "probability-desc" ∨ q.sortType = "highest-risk" then
    customers.mergeSort probDescLe
  else if q.sortType = "lowest-risk" then
    customers.mergeSort probAscLe
  else if q.sortType = "id-asc" then
    customers.mergeSort idAscLe
  else customers

/-- The full filter/search/sort effect: the value stored into
`filteredCustomers` for a given normalized set and query. -/
def computeView (customers : List Customer) (q : ViewQuery) : List Customer :=
  sortStage (filterStage customers q) q

/-! ### Task poller: interval ownership (`AppProvider` refs and effects) -/

/-- Observable timer state of `AppProvider`: the identities of the
intervals currently live in the host's timer table, the value of
`pollingIntervalRef.current`, and a fresh-id counter (`setInterval`
returns a fresh handle). -/
structure PollerState where
  liveIntervals : List Nat
  pollingIntervalRef : Option Nat
  nextTimerId : Nat

/-- The events that touch the polling interval in the source:
* `runPollingEffect` — the `[taskId]` effect fires for a non-null task
  id: React runs the previous effect's cleanup, the body clears any
  ref'd interval and calls `setInterval`, storing the fresh handle;
* `cleanupEffect` — the effect cleanup alone (taskId cleared, or the
  owning component unmounts);
* `clearOnNewUpload` — the clearing block of `handleFileSelect`;
* `terminalClear` — `pollTaskStatus` observed `done`/`failed` or threw;
* `timeoutTick` — an interval tick crossed the 30-minute ceiling:
  `clearInterval(pollingIntervalRef.current)` without nulling the ref. -/
inductive PollerOp where
  | runPollingEffect : PollerOp
  | cleanupEffect : PollerOp
  | clearOnNewUpload : PollerOp
  | terminalClear : PollerOp
  | timeoutTick : PollerOp

/-- `if (pollingIntervalRef.current) { clearInterval(...); ... = null }`. -/
def clearIntervalRef (s : PollerState) : PollerState :=
  match s.pollingIntervalRef with
  | some i =>
    { liveIntervals := s.liveIntervals.erase i
      pollingIntervalRef := none
      nextTimerId := s.nextTimerId }
  | none => s

/-- `pollingIntervalRef.current = setInterval(...)`. -/
def setIntervalOp (s : PollerState) : PollerState :=
  { liveIntervals := s.liveIntervals ++ [s.nextTimerId]
    pollingIntervalRef := some s.nextTimerId
    nextTimerId := s.nextTimerId + 1 }

/-- One event's effect on the timer state. -/
def pollerStep (s : PollerState) : PollerOp → PollerState
  | .runPollingEffect => setIntervalOp (clearIntervalRef s)
  | .cleanupEffect => clearIntervalRef s
  | .clearOnNewUpload => clearIntervalRef s
  | .terminalClear => clearIntervalRef s
  | .timeoutTick =>
    match s.pollingIntervalRef with
    | some i =>
      { liveIntervals := s.liveIntervals.erase i
        pollingIntervalRef := s.pollingIntervalRef
        nextTimerId := s.nextTimerId }
    | none => s

/-- The provider mounts with no interval and a null ref. -/
def initPoller : PollerState := ⟨[], none, 0⟩

/-- Run a sequence of events from a state. -/
def runPollerOps (s : PollerState) (ops : List PollerOp) : PollerState :=
  ops.foldl pollerStep s

/-- Timer-state invariant the source maintains: every live interval is
the one the ref points to (so in particular at most one is live). -/
def pollerInv (s : PollerState) : Prop :=
  match s.pollingIntervalRef with
  | none => s.liveIntervals = []
  | some i => s.liveIntervals = [] ∨ s.liveIntervals = [i]

/-- Status checks issued per interval tick: one per live interval. -/
def statusChecksPerTick (s : PollerState) : Nat :=
  s.liveIntervals.length

/-! ### Task poller: the 30-minute timeout guard on each tick -/

/-- `POLLING_INTERVAL = 5000` (ms). -/
def POLLING_INTERVAL : ℤ := 5000

/-- `MAX_POLLING_TIME = 30 * 60 * 1000` (ms). -/
def MAX_POLLING_TIME : ℤ := 30 * 60 * 1000

/-- The error text of the timeout branch. -/
def timeoutMessage : String :=
  "Pipeline processing took too long. Please try again or contact support."

/-- Poll-loop state for the timeout analysis: whether the interval is
still live, how many status checks have been issued by ticks, and the
surfaced error. -/
structure PollState where
  active : Bool
  checks : Nat
  error : Option String

/-- One interval tick of the `setInterval` callback at wall-clock time
`now`, for a job whose status checks keep returning non-terminal states:
at the top of the tick, `Date.now() - pollingStartTimeRef.current >
MAX_POLLING_TIME` cancels the interval and surfaces the timeout error
(issuing no check); otherwise the tick issues one status check. -/
def pollTick (startTime : ℤ) (s : PollState) (now : ℤ) : PollState :=
  if s.active then
    if now - startTime > MAX_POLLING_TIME then
      { active := false, checks := s.checks, error := some timeoutMessage }
    else
      { active := s.active, checks := s.checks + 1, error := s.error }
  else s

/-- Run the interval ticks scheduled at the given wall-clock times. -/
def runTicks (startTime : ℤ) (s : PollState) (ticks : List ℤ) : PollState :=
  ticks.foldl (pollTick startTime) s

/-- Poll-loop state right after `start`: interval live, no checks issued
by ticks yet, no error. -/
def freshPoll : PollState := ⟨true, 0, none⟩

/-! ### Application state and `handleFileSelect` -/

/-- The `AppProvider` state fields that `handleFileSelect` touches,
plus `sortType`. -/
structure AppState where
  file : Option String
  loading : Bool
  error : Option String
  results : Option JVal
  taskId : Option String
  status : Option String
  normalizedCustomers : List Customer
  filteredCustomers : List Customer
  activeFilter : String
  expandedCardId : Option String
  searchQuery : String
  sortType : String
  planTypeFilter : String
  contractTypeFilter : String
  regionFilter : String

/-- Outcome of the awaited `runPipeline(selectedFile)` call. -/
inductive SubmitOutcome where
  | success (task_id : String) : SubmitOutcome
  | failure (message : String) : SubmitOutcome

/-- `handleFileSelect` from `AppProvider`: the synchronous prefix resets
file/error/results/status/loading/taskId, empties both customer lists,
collapses the expanded card, and resets `activeFilter`, `searchQuery`
and the three category filters (it does not touch `sortType`); then the
upload outcome either stores the new task id or surfaces the submission
error (`err.message || generic`). -/
def handleFileSelect (s : AppState) (selectedFile : String)
    (outcome : SubmitOutcome) : AppState :=
  let s1 : AppState :=
    { file := some selectedFile
      loading := true
      error := none
      results := none
      taskId := none
      status := none
      normalizedCustomers := []
      filteredCustomers := []
      activeFilter := "all"
      expandedCardId := none
      searchQuery := ""
      sortType := s.sortType
      planTypeFilter := ""
      contractTypeFilter := ""
      regionFilter := "" }
  match outcome with
  | .success task_id => { s1 with taskId := some task_id }
  | .failure message =>
    { s1 with
      error := some (if message = "" then
        "An error occurred while uploading the file." else message)
      loading := false }

/-- The `useState` initial value of `sortType` in `AppProvider`. -/
def initialSortType : String := "probability-desc"

/-! ### Virtualized grid: per-row height (`getItemSize`) -/

/-- `BASE_ROW_HEIGHT` from `VirtualizedCustomerGrid.jsx`. -/
def BASE_ROW_HEIGHT : Nat := 420

/-- `EXPANDED_ROW_HEIGHT` from `VirtualizedCustomerGrid.jsx`. -/
def EXPANDED_ROW_HEIGHT : Nat := 790

/-- `getItemSize(index)` from `VirtualizedCustomerGrid.jsx`: scan the
customers at indices `index*columnCount ..< min (start+columnCount)
customers.length`; if any of them is the expanded card, the row is
`EXPANDED_ROW_HEIGHT`, else `BASE_ROW_HEIGHT`. -/
def getItemSize (customers : List Customer) (expandedCardId : Option String)
    (columnCount : Nat) (index : Nat) : Nat :=
  let startIndex := index * columnCount
  let endIndex := min (startIndex + columnCount) customers.length
  if ((customers.drop startIndex).take (endIndex - startIndex)).any
      (fun c => some c.id == expandedCardId)
  then EXPANDED_ROW_HEIGHT
  else BASE_ROW_HEIGHT

/-! ### Statement helpers -/

/-- The entries of the destructured `customer_churn` collection of a
payload (empty when the collection is missing or not an array). -/
def scoreEntries (result : JVal) : List JVal :=
  match destructGet result "customer_churn" (.arr []) with
  | .arr xs => xs
  | _ => []

/-- The resolved (pre-rescale) score of one `customer_churn` entry, as
`normalizeCustomerData` computes it.  When the property read itself
throws (a `null`/`undefined` entry, on which normalization aborts
anyway), this helper resolves `undefined`, i.e. 0. -/
def rawScoreOf (item : JVal) : ℚ :=
  resolveScore
    (match jsGetProp item "churn_probability" with
     | .ok v => v
     | .error _ => .undefined)

/-- A customer record with the given id and neutral remaining fields,
for concrete view/grid examples. -/
def mkCustomer (s : String) : Customer :=
  { id := s
    churn_probability := 0
    risk_level := "low"
    reason := .str ""
    strategy := .str ""
    feature_values := .obj []
    shap_feature_values := .obj []
    contract_type := .str ""
    internet_service := .str ""
    monthly_charges := .null }

/-- The five filter stages of the view effect as element predicates, in
source order. -/
def stagePreds (q : ViewQuery) : List (Customer → Bool) :=
  [tierKeep q, planKeep q, contractKeep q, regionKeep q, searchKeep q]

/-- Apply a list of filter stages left to right. -/
def applyFilterStages (ps : List (Customer → Bool)) (cs : List Customer) :
    List Customer :=
  ps.foldl (fun acc p => acc.filter p) cs

/-- Inversion for a successful `Except` bind. -/
theorem exceptBind_ok {ε α β : Type} {x : Except ε α} {f : α → Except ε β}
    {b : β} (h : (x >>= f) = .ok b) : ∃ a, x = .ok a ∧ f a = .ok b := by
  cases x with
  | error e => exact absurd h (by simp [Bind.bind, Except.bind])
  | ok a => exact ⟨a, rfl, h⟩

/-! ### C1 -/

/-- C1: for every raw score `s`, the normalized score is `100·s` when
`s ≤ 1` and `s` unchanged otherwise; the derived tier is `low` exactly
when the normalized score is `< 40`, `medium` exactly on `[40, 70]`,
and `high` exactly when it is `> 70`. -/
theorem c1_score_normalization_and_tier_boundaries :
    (∀ s : ℚ, (s ≤ 1 → rescaleScore s = 100 * s) ∧
      (1 < s → rescaleScore s = s)) ∧
    (∀ n : ℚ,
      (calculateRiskLevel n = "low" ↔ n < 40) ∧
      (calculateRiskLevel n = "medium" ↔ 40 ≤ n ∧ n ≤ 70) ∧
      (calculateRiskLevel n = "high" ↔ 70 < n)) := by
  constructor
  · intro s
    constructor
    · intro h
      rw [rescaleScore, if_pos h, mul_comm]
    · intro h
      rw [rescaleScore, if_neg (not_le.mpr h)]
  · intro n
    unfold calculateRiskLevel
    refine ⟨?_, ?_, ?_⟩ <;> split_ifs with h1 h2 <;>
      simp_all <;> linarith

/-- Witness for C1 at `s = 1/2` and `n = 50`. -/
theorem c1_witness :
    rescaleScore (1/2) = 100 * (1/2 : ℚ) ∧
    (calculateRiskLevel 50 = "medium" ↔ (40 : ℚ) ≤ 50 ∧ (50 : ℚ) ≤ 70) :=
  ⟨(c1_score_normalization_and_tier_boundaries.1 (1/2)).1 (by norm_num),
   (c1_score_normalization_and_tier_boundaries.2 50).2.1⟩

/-! ### C4 -/

/-- C4 counterexample: `normalizeCustomerData` is not total on
wrong-typed input — a `null` payload makes the destructuring throw, and
a numeric (non-array) `customer_churn` makes `.map` throw; neither
returns an empty sequence. -/
theorem c4_counterexample_normalize_raises :
    normalizeCustomerData JVal.null =
      Except.error "TypeError: cannot destructure a null payload" ∧
    (normalizeCustomerData (JVal.obj [("customer_churn", JVal.num 5)])).isOk
      = false := by
  exact ⟨rfl, rfl⟩

/-- C4 amended: `normalizeCustomerData` returns an empty sequence when
the entity-scores collection is missing or `undefined` (destructuring
default `[]`), but it raises on a `null`/`undefined` payload and on any
present, non-array, non-`undefined` entity-scores value; the caller
guards with `Array.isArray` before invoking it. -/
theorem c4_amended_normalize_tolerance :
    normalizeCustomerData (JVal.obj []) = .ok [] ∧
    normalizeCustomerData (JVal.obj [("customer_churn", JVal.undefined)]) = .ok [] ∧
    (normalizeCustomerData JVal.null).isOk = false ∧
    (normalizeCustomerData JVal.undefined).isOk = false ∧
    (∀ v : JVal, v.isArr = false → v.isUndefined = false →
      (normalizeCustomerData (JVal.obj [("customer_churn", v)])).isOk = false) := by
  refine ⟨rfl, rfl, rfl, rfl, ?_⟩
  intro v h1 h2
  cases v <;> simp_all [normalizeCustomerData, destructGet, jsGetOpt,
    fieldLookup, JVal.isUndefined, JVal.isArr, Except.isOk, Except.toBool]

/-- Witness for C4's amended theorem at a string-valued
`customer_churn`. -/
theorem c4_witness :
    (normalizeCustomerData (JVal.obj [("customer_churn", JVal.str "oops")])).isOk
      = false :=
  c4_amended_normalize_tolerance.2.2.2.2 (JVal.str "oops") rfl rfl

/-! ### C5 -/

/-- A payload whose single entity carries the raw score 150. -/
def overScalePayload : JVal :=
  .obj [("customer_churn", .arr [.obj [("churn_probability", .num 150)]])]

/-- C5 counterexample: a raw score of 150 (a number, already `> 1`) is
used as-is, so the produced `risk_score` is 150, outside `[0, 100]`. -/
theorem c5_counterexample_score_out_of_range :
    (normalizeCustomerData overScalePayload).map
      (fun l => l.map (fun c => c.churn_probability)) = .ok [150] ∧
    ¬ ((150 : ℚ) ≤ 100) :=
  ⟨rfl, by norm_num⟩

/-- A successfully normalized record's probability is the rescaled
resolved raw score of its entry. -/
theorem normalizeOne_churn {cr rs ci : JVal} {i : Nat} {item : JVal}
    {c : Customer} (h : normalizeOne cr rs ci i item = .ok c) :
    c.churn_probability = rescaleScore (rawScoreOf item) := by
  unfold normalizeOne at h
  obtain ⟨v, hv, h⟩ := exceptBind_ok h
  obtain ⟨idv, hid, h⟩ := exceptBind_ok h
  obtain ⟨ins, hins, h⟩ := exceptBind_ok h
  obtain ⟨rsn, hrsn, h⟩ := exceptBind_ok h
  obtain ⟨stg, hstg, h⟩ := exceptBind_ok h
  simp only [pure, Except.pure, Except.ok.injEq] at h
  subst h
  simp [rawScoreOf, hv]

/-- Rescaling keeps a raw score inside `[0, 100]` if it started there. -/
theorem rescale_bounds {s : ℚ} (h0 : 0 ≤ s) (h100 : s ≤ 100) :
    0 ≤ rescaleScore s ∧ rescaleScore s ≤ 100 := by
  unfold rescaleScore
  split_ifs with h <;> constructor <;> nlinarith

/-- Bounds for `normalizeList`: in-range raw scores give in-range
probabilities. -/
theorem normalizeList_bounds {cr rs ci : JVal} :
    ∀ (items : List JVal) (i : Nat) (cs : List Customer),
      normalizeList cr rs ci i items = .ok cs →
      (∀ item ∈ items, 0 ≤ rawScoreOf item ∧ rawScoreOf item ≤ 100) →
      ∀ c ∈ cs, 0 ≤ c.churn_probability ∧ c.churn_probability ≤ 100
  | [], _, cs, h, _ => by
    simp only [normalizeList, pure, Except.pure, Except.ok.injEq] at h
    subst h; simp
  | item :: rest, i, cs, h, hb => by
    unfold normalizeList at h
    obtain ⟨c0, hc0, h⟩ := exceptBind_ok h
    obtain ⟨cs0, hcs0, h⟩ := exceptBind_ok h
    simp only [pure, Except.pure, Except.ok.injEq] at h
    subst h
    intro c hc
    rcases List.mem_cons.mp hc with hceq | hmem
    · subst hceq
      rw [normalizeOne_churn hc0]
      exact rescale_bounds (hb item (List.mem_cons_self _ _)).1
        (hb item (List.mem_cons_self _ _)).2
    · exact normalizeList_bounds rest (i + 1) cs0 hcs0
        (fun it hit => hb it (List.mem_cons_of_mem _ hit)) c hmem

/-- Unsuccessful payload shapes aside, `normalizeCustomerData` is the
map over the destructured `customer_churn` entries. -/
theorem normalizeCustomerData_ok_inv {result : JVal} {cs : List Customer}
    (h : normalizeCustomerData result = .ok cs) :
    normalizeList (destructGet result "customer_reasons" (.arr []))
      (destructGet result "retention_strategies" (.arr []))
      (destructGet result "customer_insights" (.obj []))
      0 (scoreEntries result) = .ok cs := by
  unfold scoreEntries
  cases result <;> simp only [normalizeCustomerData] at h <;>
    first
      | exact absurd h (by simp)
      | (cases hcc : destructGet _ "customer_churn" (JVal.arr []) <;>
          rw [hcc] at h <;> simp_all)

/-- C5 amended: every `risk_score` produced by a successful
normalization lies in `[0, 100]` provided every raw entity score
resolves into `[0, 100]`; without that proviso a numeric raw score
outside the range (or any negative score) passes through. -/
theorem c5_amended_scores_in_range (result : JVal) (cs : List Customer)
    (hok : normalizeCustomerData result = .ok cs)
    (hraw : ∀ item ∈ scoreEntries result,
      0 ≤ rawScoreOf item ∧ rawScoreOf item ≤ 100) :
    ∀ c ∈ cs, 0 ≤ c.churn_probability ∧ c.churn_probability ≤ 100 :=
  normalizeList_bounds (scoreEntries result) 0 cs
    (normalizeCustomerData_ok_inv hok) hraw

/-- A payload with two in-range raw scores, for C5's witness. -/
def inRangePayload : JVal :=
  .obj [("customer_churn", .arr
    [.obj [("churn_probability", .num 50)],
     .obj [("churn_probability", .num 90)]])]

/-- First record normalized from `inRangePayload`. -/
def c5w1 : Customer :=
  { id := "customer-1", churn_probability := 50, risk_level := "medium",
    reason := .str "", strategy := .str "", feature_values := .obj [],
    shap_feature_values := .obj [], contract_type := .str "",
    internet_service := .str "", monthly_charges := .null }

/-- Second record normalized from `inRangePayload`. -/
def c5w2 : Customer :=
  { id := "customer-2", churn_probability := 90, risk_level := "high",
    reason := .str "", strategy := .str "", feature_values := .obj [],
    shap_feature_values := .obj [], contract_type := .str "",
    internet_service := .str "", monthly_charges := .null }

/-- Witness for C5's amended theorem at `inRangePayload`. -/
theorem c5_witness :
    0 ≤ c5w1.churn_probability ∧ c5w1.churn_probability ≤ 100 :=
  c5_amended_scores_in_range inRangePayload [c5w1, c5w2] rfl (by decide)
    c5w1 (List.mem_cons_self _ _)

/-! ### C6 -/

/-- A prior application state with a non-default sort key and stale
query state, for C6's counterexample. -/
def staleState : AppState :=
  { file := none, loading := false, error := some "old error",
    results := none, taskId := none, status := some "done",
    normalizedCustomers := [], filteredCustomers := [],
    activeFilter := "critical", expandedCardId := some "customer-3",
    searchQuery := "99", sortType := "id-asc", planTypeFilter := "DSL",
    contractTypeFilter := "", regionFilter := "" }

/-- C6 counterexample: starting a new upload does NOT clear the sort
key — from a prior `sortType = "id-asc"` the new job still carries
`"id-asc"`, not the initial `"probability-desc"`. -/
theorem c6_counterexample_sort_key_survives :
    (handleFileSelect staleState "churn.csv" (.success "task-2")).sortType
      = "id-asc" ∧
    ("id-asc" : String) ≠ initialSortType := by
  exact ⟨rfl, by decide⟩

/-- C6 amended: starting a new upload unconditionally clears the prior
error, results, status, customer lists, tier filter, search text,
category filters and expanded id before the new job begins — but the
sort key is left unchanged. -/
theorem c6_amended_clean_slate (s : AppState) (f task_id : String) :
    (handleFileSelect s f (.success task_id)).error = none ∧
    (handleFileSelect s f (.success task_id)).results = none ∧
    (handleFileSelect s f (.success task_id)).status = none ∧
    (handleFileSelect s f (.success task_id)).normalizedCustomers = [] ∧
    (handleFileSelect s f (.success task_id)).filteredCustomers = [] ∧
    (handleFileSelect s f (.success task_id)).activeFilter = "all" ∧
    (handleFileSelect s f (.success task_id)).searchQuery = "" ∧
    (handleFileSelect s f (.success task_id)).planTypeFilter = "" ∧
    (handleFileSelect s f (.success task_id)).contractTypeFilter = "" ∧
    (handleFileSelect s f (.success task_id)).regionFilter = "" ∧
    (handleFileSelect s f (.success task_id)).expandedCardId = none ∧
    (handleFileSelect s f (.success task_id)).taskId = some task_id ∧
    (handleFileSelect s f (.success task_id)).sortType = s.sortType := by
  repeat constructor

/-! ### C3 -/

/-- C3 counterexample: on the interval tick at which the elapsed time
equals the 30-minute ceiling exactly (so the tick is "at the ceiling"),
the guard `elapsed > MAX_POLLING_TIME` is false: the poller issues a
status check instead of transitioning to TimedOut. -/
theorem c3_counterexample_tick_at_ceiling_still_polls :
    pollTick 0 freshPoll MAX_POLLING_TIME =
      { active := true, checks := 1, error := none } ∧
    MAX_POLLING_TIME ≤ MAX_POLLING_TIME - 0 := by
  exact ⟨rfl, by decide⟩

/-- Inactive poll state absorbs further ticks. -/
theorem runTicks_inactive {startTime : ℤ} {s : PollState}
    (h : s.active = false) : ∀ ticks : List ℤ, runTicks startTime s ticks = s := by
  intro ticks
  induction ticks with
  | nil => rfl
  | cons t ts ih =>
    have hstep : pollTick startTime s t = s := by
      unfold pollTick; rw [h]; simp
    rw [runTicks, List.foldl_cons, hstep]
    exact ih

/-- Ticks whose elapsed time stays at or under the ceiling each issue
exactly one status check and keep polling. -/
theorem runTicks_in_bound (startTime : ℤ) :
    ∀ (ticks : List ℤ) (k : Nat),
      (∀ x ∈ ticks, x - startTime ≤ MAX_POLLING_TIME) →
      runTicks startTime { active := true, checks := k, error := none } ticks =
        { active := true, checks := k + ticks.length, error := none } := by
  intro ticks
  induction ticks with
  | nil => intro k _; simp [runTicks]
  | cons t ts ih =>
    intro k hb
    have ht : ¬ (t - startTime > MAX_POLLING_TIME) :=
      not_lt.mpr (hb t (List.mem_cons_self _ _))
    rw [runTicks, List.foldl_cons]
    have hstep : pollTick startTime
        { active := true, checks := k, error := none } t =
        { active := true, checks := k + 1, error := none } := by
      unfold pollTick; simp [ht]
    rw [hstep]
    have := ih (k + 1) (fun x hx => hb x (List.mem_cons_of_mem _ hx))
    rw [runTicks] at this
    rw [this, List.length_cons]
    congr 1
    omega

/-- C3 amended: when every earlier tick is at or under the ceiling and
tick `t` strictly exceeds it, the run cancels on tick `t` — the checks
counter stops at the number of earlier ticks (tick `t` and all later
ticks issue none) and the timeout-specific error is surfaced.  A tick
exactly at the ceiling still polls (see the counterexample), so the
transition happens on the first tick strictly after the ceiling, not
"at or after" it. -/
theorem c3_amended_timeout_on_first_tick_strictly_after
    (startTime t : ℤ) (ts1 ts2 : List ℤ)
    (h1 : ∀ x ∈ ts1, x - startTime ≤ MAX_POLLING_TIME)
    (h2 : t - startTime > MAX_POLLING_TIME) :
    runTicks startTime freshPoll (ts1 ++ t :: ts2) =
      { active := false, checks := ts1.length, error := some timeoutMessage } := by
  rw [runTicks, List.foldl_append]
  have hts1 := runTicks_in_bound startTime ts1 0 h1
  rw [runTicks] at hts1
  rw [show (freshPoll : PollState) =
    { active := true, checks := 0, error := none } from rfl]
  rw [hts1, List.foldl_cons]
  have hstep : pollTick startTime
      { active := true, checks := 0 + ts1.length, error := none } t =
      { active := false, checks := ts1.length, error := some timeoutMessage } := by
    unfold pollTick
    simp [h2]
  rw [hstep]
  have hrest := @runTicks_inactive startTime
    { active := false, checks := ts1.length, error := some timeoutMessage }
    rfl ts2
  rw [runTicks] at hrest
  exact hrest

/-- Witness for C3's amended theorem: start at 0, ticks at 5000 and
1800000 (the ceiling) poll, the tick at 1805000 times out, the tick at
1810000 is ignored. -/
theorem c3_witness :
    runTicks 0 freshPoll ([5000, 1800000] ++ 1805000 :: [1810000]) =
      { active := false, checks := 2, error := some timeoutMessage } :=
  c3_amended_timeout_on_first_tick_strictly_after 0 1805000
    [5000, 1800000] [1810000] (by decide) (by decide)

/-! ### C2 -/

/-- Each poller event preserves the timer-state invariant. -/
theorem pollerInv_step {s : PollerState} (h : pollerInv s) :
    ∀ op : PollerOp, pollerInv (pollerStep s op) := by
  intro op
  obtain ⟨live, ref, n⟩ := s
  cases op <;> cases ref <;>
    simp_all [pollerInv, pollerStep, clearIntervalRef, setIntervalOp] <;>
    rcases h with h | h <;> simp [h]

/-- The invariant holds after any event sequence from a state in which
it holds. -/
theorem pollerInv_run {s : PollerState} (h : pollerInv s)
    (ops : List PollerOp) : pollerInv (runPollerOps s ops) := by
  induction ops generalizing s with
  | nil => exact h
  | cons op ops ih =>
    rw [runPollerOps, List.foldl_cons]
    exact ih (pollerInv_step h op)

/-- Starting (or restarting) polling from any invariant state leaves
exactly one live interval. -/
theorem pollerStart_single {s : PollerState} (h : pollerInv s) :
    (pollerStep s PollerOp.runPollingEffect).liveIntervals = [s.nextTimerId] := by
  obtain ⟨live, ref, n⟩ := s
  cases ref <;>
    simp_all [pollerInv, pollerStep, clearIntervalRef, setIntervalOp] <;>
    rcases h with h | h <;> simp [h]

/-- C2: from the mounted provider, after any interleaving of polling
events — including rapid repeated starts — the timer-state invariant
holds, so at most one polling interval is ever live; and any event
sequence that ends by starting a job (in particular, starting a second
job while a first is polling) leaves exactly one live interval, so
exactly one status check fires per subsequent tick. -/
theorem c2_single_polling_loop :
    (∀ ops : List PollerOp, pollerInv (runPollerOps initPoller ops)) ∧
    (∀ ops : List PollerOp,
      statusChecksPerTick (runPollerOps initPoller ops) ≤ 1) ∧
    (∀ ops : List PollerOp,
      statusChecksPerTick
        (runPollerOps initPoller (ops ++ [PollerOp.runPollingEffect])) = 1) := by
  have hinit : pollerInv initPoller := rfl
  refine ⟨fun ops => pollerInv_run hinit ops, fun ops => ?_, fun ops => ?_⟩
  · have h := pollerInv_run hinit ops
    unfold statusChecksPerTick
    set s := runPollerOps initPoller ops
    obtain ⟨live, ref, n⟩ := s
    cases ref <;> simp_all [pollerInv] <;> rcases h with h | h <;> simp [h]
  · have h := pollerInv_run hinit ops
    have hs := pollerStart_single h
    unfold statusChecksPerTick
    rw [runPollerOps, List.foldl_append, List.foldl_cons, List.foldl_nil]
    rw [show List.foldl pollerStep initPoller ops =
      runPollerOps initPoller ops from rfl]
    rw [hs]
    rfl

/-! ### C7 -/

/-- A 9-entity view for the concrete part of C7 (ids `customer-1` ..
`customer-9`; with 4 columns, index 6 is `customer-7` in row 1). -/
def grid9 : List Customer :=
  (List.range 9).map (fun i => mkCustomer ("customer-" ++ toString (i + 1)))

/-- C7: a row's height is the expanded height iff one of the entities
occupying it (indices `row*columns ..< min (row*columns+columns) len`)
is the currently expanded entity, and the base height otherwise; in
particular on a 9-entity view with 4 columns, expanding index 6 makes
row 1 tall with rows 0 and 2 base, and collapsing restores row 1. -/
theorem c7_row_height_iff_contains_expanded :
    (∀ (customers : List Customer) (expandedCardId : Option String)
        (columnCount index : Nat),
      (getItemSize customers expandedCardId columnCount index
          = EXPANDED_ROW_HEIGHT ↔
        ∃ i c, index * columnCount ≤ i ∧
          i < min (index * columnCount + columnCount) customers.length ∧
          customers[i]? = some c ∧ expandedCardId = some c.id) ∧
      (getItemSize customers expandedCardId columnCount index
          = EXPANDED_ROW_HEIGHT ∨
        getItemSize customers expandedCardId columnCount index
          = BASE_ROW_HEIGHT)) ∧
    (getItemSize grid9 (some "customer-7") 4 0 = BASE_ROW_HEIGHT ∧
     getItemSize grid9 (some "customer-7") 4 1 = EXPANDED_ROW_HEIGHT ∧
     getItemSize grid9 (some "customer-7") 4 2 = BASE_ROW_HEIGHT ∧
     getItemSize grid9 none 4 0 = BASE_ROW_HEIGHT ∧
     getItemSize grid9 none 4 1 = BASE_ROW_HEIGHT ∧
     getItemSize grid9 none 4 2 = BASE_ROW_HEIGHT) := by
  have hNe : BASE_ROW_HEIGHT ≠ EXPANDED_ROW_HEIGHT := by decide
  refine ⟨fun customers e cols index => ⟨?_, ?_⟩,
    rfl, rfl, rfl, rfl, rfl, rfl⟩
  · rw [getItemSize]
    split_ifs with hany
    · simp only [true_iff]
      rw [List.any_eq_true] at hany
      obtain ⟨x, hmem, hbeq⟩ := hany
      rw [List.mem_iff_getElem?] at hmem
      obtain ⟨j, hj⟩ := hmem
      rw [List.getElem?_take] at hj
      by_cases hjlt : j < min (index * cols + cols) customers.length - index * cols
      · rw [if_pos hjlt, List.getElem?_drop] at hj
        exact ⟨index * cols + j, x, Nat.le_add_right _ _, by omega, hj,
          (beq_iff_eq.mp hbeq).symm⟩
      · rw [if_neg hjlt] at hj
        exact absurd hj (by simp)
    · constructor
      · intro h
        exact absurd h hNe
      · intro ⟨i, c, hle, hlt, hget, he⟩
        exfalso
        apply hany
        rw [List.any_eq_true]
        refine ⟨c, ?_, by simp [he]⟩
        rw [List.mem_iff_getElem?]
        refine ⟨i - index * cols, ?_⟩
        rw [List.getElem?_take, if_pos (by omega), List.getElem?_drop]
        rw [show index * cols + (i - index * cols) = i from by omega]
        exact hget
  · rw [getItemSize]
    split_ifs with hany
    · exact Or.inl rfl
    · exact Or.inr rfl

/-! ### C8 -/

/-- The `id-asc` stable-sort order is transitive. -/
theorem idAscLe_trans :
    ∀ a b c, idAscLe a b = true → idAscLe b c = true → idAscLe a c = true := by
  intro a b c hab hbc
  simp only [idAscLe, decide_eq_true_eq] at hab hbc ⊢
  rcases hab with h1 | ⟨h1, h1s⟩ <;> rcases hbc with h2 | ⟨h2, h2s⟩
  · exact Or.inl (lt_trans h1 h2)
  · exact Or.inl (h2 ▸ h1)
  · exact Or.inl (h1 ▸ h2)
  · exact Or.inr ⟨h1.trans h2, le_trans h1s h2s⟩

/-- The `id-asc` stable-sort order is total. -/
theorem idAscLe_total : ∀ a b, (idAscLe a b || idAscLe b a) = true := by
  intro a b
  simp only [idAscLe, Bool.or_eq_true, decide_eq_true_eq]
  rcases lt_trichotomy (firstDigitRun a.id) (firstDigitRun b.id) with h | h | h
  · exact Or.inl (Or.inl h)
  · rcases le_total a.id b.id with hs | hs
    · exact Or.inl (Or.inr ⟨h, hs⟩)
    · exact Or.inr (Or.inr ⟨h.symm, hs⟩)
  · exact Or.inr (Or.inl h)

/-- An all-pass query whose sort key is `id-asc`. -/
def idAscQuery : ViewQuery :=
  { activeFilter := "all", planTypeFilter := "", contractTypeFilter := "",
    regionFilter := "", searchQuery := "", sortType := "id-asc" }

/-- C8: under the `id-asc` sort key, the view is ordered by the integer
value of the first embedded digit run of the id, ties broken by
lexicographic comparison of the whole id, and is a permutation of the
filtered set; in particular `["entity-11", "entity-2", "entity-1"]`
comes out as `["entity-1", "entity-2", "entity-11"]`. -/
theorem c8_id_asc_natural_numeric_order :
    (∀ (cs : List Customer) (q : ViewQuery), q.sortType = "id-asc" →
      (computeView cs q).Pairwise (fun a b =>
        firstDigitRun a.id < firstDigitRun b.id ∨
          (firstDigitRun a.id = firstDigitRun b.id ∧ a.id ≤ b.id)) ∧
      (computeView cs q).Perm (filterStage cs q)) ∧
    (computeView
        [mkCustomer "entity-11", mkCustomer "entity-2", mkCustomer "entity-1"]
        idAscQuery).map (fun c => c.id)
      = ["entity-1", "entity-2", "entity-11"] := by
  constructor
  · intro cs q h
    have hview : computeView cs q = (filterStage cs q).mergeSort idAscLe := by
      rw [computeView, sortStage, h]
      simp
    rw [hview]
    constructor
    · exact (List.sorted_mergeSort idAscLe_trans idAscLe_total _).imp
        (fun hab => by simpa [idAscLe, decide_eq_true_eq] using hab)
    · exact List.mergeSort_perm _ _
  · simp [computeView, sortStage, filterStage, idAscQuery, List.mergeSort,
      List.merge, idAscLe, firstDigitRun, mkCustomer, digitsToNat]

/-- Witness for C8's general part at a concrete one-element view. -/
theorem c8_witness :
    (computeView [mkCustomer "a-1"] idAscQuery).Perm
      (filterStage [mkCustomer "a-1"] idAscQuery) :=
  (c8_id_asc_natural_numeric_order.1 [mkCustomer "a-1"] idAscQuery rfl).2

/-! ### C9 -/

/-- Whatever the sort key, the sort stage only reorders. -/
theorem sortStage_perm (l : List Customer) (q : ViewQuery) :
    (sortStage l q).Perm l := by
  rw [sortStage]
  split_ifs <;> first | exact List.mergeSort_perm _ _ | exact List.Perm.refl _

/-- C9: changing only the sort key never changes which entities pass
the filters — the views under any two sort keys are permutations of one
another — and recomputation with identical inputs yields the identical
output ordering. -/
theorem c9_sort_key_independent_selection :
    (∀ (cs : List Customer) (q : ViewQuery) (k1 k2 : String),
      (computeView cs { q with sortType := k1 }).Perm
        (computeView cs { q with sortType := k2 })) ∧
    (∀ (cs : List Customer) (q : ViewQuery),
      computeView cs q = computeView cs q) := by
  refine ⟨fun cs q k1 k2 => ?_, fun _ _ => rfl⟩
  have h1 : filterStage cs { q with sortType := k1 } = filterStage cs q := rfl
  have h2 : filterStage cs { q with sortType := k2 } = filterStage cs q := rfl
  rw [computeView, computeView, h1, h2]
  exact (sortStage_perm _ _).trans (sortStage_perm _ _).symm

/-! ### C10 -/

/-- A filter whose predicate holds everywhere is the identity. -/
theorem filter_of_true {l : List Customer} {p : Customer → Bool}
    (h : ∀ c, p c = true) : l.filter p = l :=
  List.filter_eq_self.mpr (fun a _ => h a)

/-- The conditionally-applied source stages equal the unconditional
five-stage predicate pipeline. -/
theorem filterStage_eq_stages (cs : List Customer) (q : ViewQuery) :
    filterStage cs q = applyFilterStages (stagePreds q) cs := by
  have t1 : (if q.activeFilter = "critical" ∨ q.activeFilter = "high" ∨
        q.activeFilter = "low"
      then cs.filter (tierKeep q) else cs) = cs.filter (tierKeep q) := by
    split_ifs with h
    · rfl
    · push_neg at h
      exact (filter_of_true (fun c => by
        simp [tierKeep, h.1, h.2.1, h.2.2])).symm
  have t2 : ∀ l : List Customer,
      (if q.planTypeFilter ≠ "" then l.filter (planKeep q) else l)
        = l.filter (planKeep q) := by
    intro l
    split_ifs with h
    · rfl
    · push_neg at h
      exact (filter_of_true (fun c => by simp [planKeep, h])).symm
  have t3 : ∀ l : List Customer,
      (if q.contractTypeFilter ≠ "" then l.filter (contractKeep q) else l)
        = l.filter (contractKeep q) := by
    intro l
    split_ifs with h
    · rfl
    · push_neg at h
      exact (filter_of_true (fun c => by simp [contractKeep, h])).symm
  have t4 : ∀ l : List Customer,
      (if q.regionFilter ≠ "" then l.filter (regionKeep q) else l)
        = l.filter (regionKeep q) := by
    intro l
    split_ifs with h
    · rfl
    · push_neg at h
      exact (filter_of_true (fun c => by simp [regionKeep, h])).symm
  have t5 : ∀ l : List Customer,
      (if q.searchQuery ≠ "" then l.filter (searchKeep q) else l)
        = l.filter (searchKeep q) := by
    intro l
    split_ifs with h
    · rfl
    · push_neg at h
      exact (filter_of_true (fun c => by simp [searchKeep, h])).symm
  simp only [filterStage, applyFilterStages, stagePreds, List.foldl_cons,
    List.foldl_nil]
  rw [t1, t2, t3, t4, t5]

/-- Folding the stages is filtering by the conjunction of all of them. -/
theorem applyFilterStages_eq_filter_all :
    ∀ (ps : List (Customer → Bool)) (cs : List Customer),
      applyFilterStages ps cs = cs.filter (fun c => ps.all (fun p => p c))
  | [], cs => by simp [applyFilterStages]
  | p :: ps, cs => by
    rw [applyFilterStages, List.foldl_cons]
    rw [show List.foldl (fun acc pr => acc.filter pr) (cs.filter p) ps
      = applyFilterStages ps (cs.filter p) from rfl]
    rw [applyFilterStages_eq_filter_all ps (cs.filter p), List.filter_filter]
    exact List.filter_congr (fun x _ => by
      simp [List.all_cons, Bool.and_comm])

/-- The conjunction of a list of predicates is invariant under
permutation of the list. -/
theorem all_perm {ps qs : List (Customer → Bool)} (h : ps.Perm qs)
    (c : Customer) : ps.all (fun p => p c) = qs.all (fun p => p c) := by
  rw [Bool.eq_iff_iff, List.all_eq_true, List.all_eq_true]
  exact ⟨fun ha p hp => ha p (h.mem_iff.mpr hp),
    fun ha p hp => ha p (h.mem_iff.mp hp)⟩

/-- C10: the five filter stages are independent element predicates —
the selected set is exactly the sub-list of entities satisfying all of
them (the intersection of the predicate sets), and applying the stages
in any relative order yields the same selection. -/
theorem c10_filters_commute_and_intersect :
    (∀ (cs : List Customer) (q : ViewQuery) (c : Customer),
      c ∈ filterStage cs q ↔
        c ∈ cs ∧ tierKeep q c = true ∧ planKeep q c = true ∧
          contractKeep q c = true ∧ regionKeep q c = true ∧
          searchKeep q c = true) ∧
    (∀ (q : ViewQuery) (ps : List (Customer → Bool)) (cs : List Customer),
      ps.Perm (stagePreds q) → applyFilterStages ps cs = filterStage cs q) := by
  constructor
  · intro cs q c
    rw [filterStage_eq_stages, applyFilterStages_eq_filter_all,
      List.mem_filter]
    simp [stagePreds, List.all_cons, Bool.and_eq_true, and_assoc]
  · intro q ps cs h
    rw [filterStage_eq_stages, applyFilterStages_eq_filter_all,
      applyFilterStages_eq_filter_all]
    exact List.filter_congr (fun x _ => all_perm h x)

/-- An all-pass query for C10's witness. -/
def swapQuery : ViewQuery :=
  { activeFilter := "all", planTypeFilter := "", contractTypeFilter := "",
    regionFilter := "", searchQuery := "", sortType := "" }

/-- Witness for C10 at a concrete customer list and a transposed stage
order (plan-type filter before tier filter). -/
theorem c10_witness :
    applyFilterStages
      [planKeep swapQuery, tierKeep swapQuery, contractKeep swapQuery,
        regionKeep swapQuery, searchKeep swapQuery]
      [mkCustomer "w-1"]
      = filterStage [mkCustomer "w-1"] swapQuery :=
  c10_filters_commute_and_intersect.2 swapQuery _ _ (List.Perm.swap _ _ _)

end Retention
